import Mathlib

/-!
Verification development for `neuralpredictors/data/datasets/movies.py`.

The Python source is shallowly embedded below:
* `Container` models an opened HDF5 file handle (`self._fid`): a set of named
  groups, each addressable per element by a *string* key (h5py layout written
  by the data pipeline), together with a per-group length (`len(self.data[key])`).
* `H5State` models an `H5SequenceSet` instance; `H5init` is `__init__`,
  `H5State.getItem` is `__getitem__`, `loadContent` / `unloadContent` are the
  lazy/eager toggles.
* `MovieState` extends it with the statistics handle (`self.statistics`, read
  through `__getattr__` from the container) and `img_shape`, and carries the
  `MovieSet` methods `transformedMean`, `rfBase`, `rfNoiseStim`.
* `NRS*` definitions model `NRandomSubSequenceDataset`.

Python exceptions are embedded as the error type `PyErr`.  Following the
spec's error taxonomy (§7), the `AssertionError` from `assert key in self.data`
and the `ValueError("groups have different length")` are both rendered as
`PyErr.schemaError`, the construction-time assertion / `np.random.randint`
`ValueError` in `NRandomSubSequenceDataset.__init__` as `PyErr.configError`;
a failed dict lookup (`d[dk]`) is `PyErr.keyError` and a failed attribute
resolution through `__getattr__` is `PyErr.attributeError`.
-/

namespace NeuralPredictors

/-- Embedded Python failure modes (see module docstring for the mapping). -/
inductive PyErr where
  | schemaError
  | configError
  | keyError
  | attributeError
  deriving DecidableEq, Repr

/-- An opened columnar container (h5py file handle).  `groups` are the names
present at top level (`key in self.data`), `elem g k` is the element stored
under group `g` at string key `k` (`self.data[g][k]`; `none` = `KeyError`),
and `glen g` is `len(self.data[g])`. -/
structure Container (α : Type) where
  groups : List String
  elem : String → String → Option α
  glen : String → Nat

/-- The key used in `self.data[g][item if self.data_loaded else str(item)]`:
an integer in eager mode, the decimal string in lazy mode. -/
inductive HKey where
  | str (s : String)
  | num (n : Nat)

/-- `self.data`: either the still-open file handle (lazy) or the materialized
nested mapping produced by the recursive loader (eager). -/
inductive Backing (α : Type) where
  | onDisk (c : Container α)
  | inMem (d : String → Nat → Option α)

/-- Element lookup through the current backing.  An h5py group only resolves
string member names; the materialized mapping is integer-addressable
(spec §3), so a key of the wrong kind misses. -/
def Backing.lookupB : Backing α → String → HKey → Option α
  | .onDisk c, g, .str s => c.elem g s
  | .onDisk _, _, .num _ => none
  | .inMem d, g, .num i => d g i
  | .inMem _, _, .str _ => none

/-- Modelled from the spec: `recursively_load_dict_contents_from_group`
(`neuralpredictors/utils.py`, not part of the embedded source).  Per spec §3
the loaded backing is "a fully materialized nested mapping (group →
array-like, index-addressable by integer)": the same stored content as the
container, re-addressed so that integer `i` retrieves what string key
`str(i)` retrieves on disk. -/
def loadAll (c : Container α) : String → Nat → Option α :=
  fun g i => c.elem g (toString i)

/-- Which transform classes a collection accepts (`self._transform_set`):
`DataTransform` for `H5SequenceSet`, `MovieTransform` for `MovieSet`. -/
inductive TSet where
  | dataT
  | movieT
  deriving DecidableEq

/-- A transform pipeline stage: a callable on samples carrying its capability
tags (spec §6).  `isMovie` models `isinstance(tr, MovieTransform)`; every
stage we model is a `DataTransform`, so `TSet.dataT` accepts all of them.
`isSub` / `isDelay` model `isinstance(tr, Subsequence)` /
`isinstance(tr, Delay)`. -/
structure Tr (α : Type) where
  isMovie : Bool
  isSub : Bool
  isDelay : Bool
  fn : List α → List α

/-- `isinstance(tr, self._transform_set)`. -/
def TSet.accepts : TSet → Tr α → Bool
  | .dataT, _ => true
  | .movieT, tr => tr.isMovie

/-- An `H5SequenceSet` instance.  `lenV` is `self._len` (`None` when no data
keys were given, hence `Option`); `dataLoaded` is `self.data_loaded`. -/
structure H5State (α : Type) where
  fid : Container α
  backing : Backing α
  dataLoaded : Bool
  dataKeys : List String
  lenV : Option Nat
  tset : TSet
  transforms : List (Tr α)

/-- The `__init__` validation loop: for each key, `assert key in self.data`,
then compare `len(self.data[key])` with the running length `m`. -/
def checkKeys (c : Container α) : List String → Option Nat → Except PyErr (Option Nat)
  | [], m => .ok m
  | k :: rest, m =>
    if k ∈ c.groups then
      match m with
      | some m0 =>
        if c.glen k ≠ m0 then .error .schemaError
        else checkKeys c rest (some (c.glen k))
      | none => checkKeys c rest (some (c.glen k))
    else .error .schemaError

/-- `H5SequenceSet.__init__`: validates the requested keys against the open
container and starts in lazy mode with `self.data = self._fid`.  (The
`output_rename` machinery only renames tuple fields, never values, and is
omitted.) -/
def H5init (c : Container α) (keys : List String) (trs : List (Tr α)) :
    Except PyErr (H5State α) :=
  (checkKeys c keys none).map fun m =>
    { fid := c, backing := .onDisk c, dataLoaded := false, dataKeys := keys,
      lenV := m, tset := .dataT, transforms := trs }

/-- `load_content`: `self.data = recursively_load_dict_contents_from_group(self._fid);
self.data_loaded = True`. -/
def loadContent (s : H5State α) : H5State α :=
  { s with backing := .inMem (loadAll s.fid), dataLoaded := true }

/-- `unload_content`: `self.data = self._fid; self.data_loaded = False`. -/
def unloadContent (s : H5State α) : H5State α :=
  { s with backing := .onDisk s.fid, dataLoaded := false }

/-- Gather one element per data key, failing with `KeyError` on a miss
(the generator inside `self.data_point(*(np.array(self.data[g][...]) ...))`). -/
def collectReads (f : String → Option α) : List String → Except PyErr (List α)
  | [] => .ok []
  | g :: rest =>
    match f g with
    | some v => (collectReads f rest).map (v :: ·)
    | none => .error .keyError

/-- The per-stage loop of `__getitem__`:
`assert isinstance(tr, self._transform_set); x = tr(x)` — each stage is
checked immediately before it runs, in declared order. -/
def applyChecked (acc : Tr α → Bool) : List (Tr α) → List α → Except PyErr (List α)
  | [], x => .ok x
  | tr :: rest, x =>
    if acc tr then applyChecked acc rest (tr.fn x) else .error .schemaError

/-- `H5SequenceSet.__getitem__`: read one element per key through the current
backing (integer key iff `data_loaded`), then run the checked transform loop.
(The trailing `output_point` rename and `_asdict` conversion only relabel
fields and are omitted.) -/
def H5State.getItem (s : H5State α) (i : Nat) : Except PyErr (List α) :=
  (collectReads
      (fun g =>
        s.backing.lookupB g (if s.dataLoaded then HKey.num i else HKey.str (toString i)))
      s.dataKeys).bind
    (applyChecked (s.tset.accepts) s.transforms)

/-! ### MovieSet layer -/

/-- A (possibly 0-dimensional) numpy array over `ℚ`: a shape together with an
entry function on multi-indices.  Indices beyond `shape.length` are ignored
by the constructions below. -/
structure NArr where
  shape : List Nat
  entry : List Nat → ℚ

/-- `self.img_shape`, read through `__getattr__` from the container's
`img_shape` dataset: `(N, c, t, w, h)`. -/
structure Shape5 where
  n : Nat
  c : Nat
  t : Nat
  w : Nat
  h : Nat

/-- `np.atleast_1d`: a 0-d array becomes shape `[1]`, anything else is kept. -/
def atleast1d (a : NArr) : NArr :=
  if a.shape = [] then ⟨[1], fun _ => a.entry []⟩ else a

/-- Numpy broadcast index alignment of a trailing-aligned operand: axes of
size 1 are pinned to index 0. -/
def bAlign (ashape idx : List Nat) : List Nat :=
  (ashape.zip idx).map fun p => if p.1 = 1 then 0 else p.2

/-- `np.ones(shape) * a` for a trailing-broadcastable `a` (in `rf_base`,
`a = np.array(mean("inputs"))`, a 0-d scalar, making the result constant). -/
def onesMul (shape : List Nat) (a : NArr) : NArr :=
  ⟨shape, fun idx => a.entry (bAlign a.shape (idx.drop (shape.length - a.shape.length)))⟩

/-- `np.ones((1, t, 1)) * v[None, None, :]` for a 1-d statistics vector `v`:
result shape `(1, t, len v)`, entry `(i, j, l) = v[l]`. -/
def bcastTime (t : Nat) (a : NArr) : NArr :=
  ⟨1 :: t :: a.shape, fun idx => a.entry (idx.drop 2)⟩

/-- `TransformDataset.transform(x, exclude=...)` (base class, modelled from
the spec §6: stages applied in declared order, instances of the excluded
classes skipped, no capability assertion on this path). -/
def transformExcl (excl : Tr NArr → Bool) : List (Tr NArr) → List NArr → List NArr
  | [], x => x
  | tr :: rest, x => transformExcl excl rest (if excl tr then x else tr.fn x)

/-- Plain left-to-right application of a pipeline (no exclusion, no check). -/
def applyAll : List (Tr NArr) → List NArr → List NArr
  | [], x => x
  | tr :: rest, x => applyAll rest (tr.fn x)

/-- A `MovieSet` instance: the `H5SequenceSet` state (over `NArr` elements)
plus the statistics handle (`self.statistics[g][source][stat][()]`, exposed
here as the `np.atleast_1d`-compatible array it stores), the container's
`img_shape`, and `self.stats_source`. -/
structure MovieState extends H5State NArr where
  stats : String → String → String → NArr
  imgShape : Shape5
  statsSource : String

/-- `MovieSet.__init__`: the base `__init__` followed by
`self._transform_set = MovieTransform` and `self.stats_source = stats_source`. -/
def movieInit (c : Container NArr) (keys : List String) (trs : List (Tr NArr))
    (stats : String → String → String → NArr) (ishape : Shape5) (src : String) :
    Except PyErr MovieState :=
  (H5init c keys trs).map fun b =>
    { toH5State := { b with tset := .movieT },
      stats := stats, imgShape := ishape, statsSource := src }

/-- `MovieSet.transformed_mean(stats_source=None)`: one `np.atleast_1d` mean
per data key, routed through `self.transform` with `exclude=(Subsequence,
Delay)`. -/
def transformedMean (ms : MovieState) (srcO : Option String) : List NArr :=
  let src := srcO.getD ms.statsSource
  transformExcl (fun tr => tr.isSub || tr.isDelay) ms.transforms
    (ms.dataKeys.map fun g => atleast1d (ms.stats g src "mean"))

/-- The fixed four-key dict `d` built inside `MovieSet.rf_base`, with
`t = min(self.img_shape[2], 150)`; `none` models the `KeyError` raised by
`d[dk]` for any other key. -/
def rfBaseDict (ms : MovieState) (src : String) : String → Option NArr :=
  let t := min ms.imgShape.t 150
  fun k =>
    if k = "inputs" then
      some (onesMul [1, ms.imgShape.c, t, ms.imgShape.w, ms.imgShape.h]
        (ms.stats "inputs" src "mean"))
    else if k = "eye_position" then some (bcastTime t (ms.stats "eye_position" src "mean"))
    else if k = "behavior" then some (bcastTime t (ms.stats "behavior" src "mean"))
    else if k = "responses" then some (bcastTime t (ms.stats "responses" src "mean"))
    else none

/-- `MovieSet.rf_base(stats_source="all")`: assemble `d[dk] for dk in
self.data_keys` (a missing key raises), then `self.transform(...,
exclude=Subsequence)` — only subsequence stages are excluded here. -/
def rfBase (ms : MovieState) (src : String) : Except PyErr (List NArr) :=
  (collectReads (rfBaseDict ms src) ms.dataKeys).map
    (transformExcl (fun tr => tr.isSub) ms.transforms)

/-- `MovieSet.rf_noise_stim(m, t, stats_source="all")`.  The noise stimulus
and the dict `d` are built first, but the final line evaluates
`self.data_groups`, which no class in the hierarchy defines (the attribute is
`self.data_keys`); resolution falls through to `__getattr__`, which either
finds a container group of that name (then `d[dk]` is looked up with an h5py
object, never a string key of `d`: `KeyError`) or raises `AttributeError`.
The call can therefore never return the constructed sample. -/
def rfNoiseStim (ms : MovieState) (_m _t : Nat) (_src : String) :
    Except PyErr (List NArr) :=
  if "data_groups" ∈ ms.fid.groups then .error .keyError
  else .error .attributeError

/-! ### NRandomSubSequenceDataset -/

/-- One field of a base sample: axis 0 (e.g. channels) × axis 1 (time). -/
abbrev Mat := List (List ℚ)

/-- A base-collection sample: one matrix per named field. -/
abbrev NSample := List Mat

/-- Numpy slice `x[:, a:b]` (with `a ≤ b`): every axis-0 row restricted to
time indices `[a, b)`, clipped at the row's length. -/
def sliceMat (a b : Nat) (x : Mat) : Mat :=
  x.map fun row => (row.drop a).take (b - a)

/-- The `__init__` loop over `enumerate(original_dat.trial_info.tiers)`
building `new_tiers`/`new_inds` as one list of `(index, tier)` pairs:
"none" items are dropped, "train" items repeated `num` times, the rest kept
once. -/
def expandTiers (num : Nat) : List (Nat × String) → List (Nat × String)
  | [] => []
  | (ii, t) :: rest =>
    (if t = "none" then []
     else if t = "train" then List.replicate num (ii, t)
     else [(ii, t)]) ++ expandTiers num rest

/-- An `NRandomSubSequenceDataset` instance.  `randomEnd` is
`self.random_end = self.random_start + subsequence_length`; `num4rand` (the
modulus in `__getitem__`) is `randomStart.length`. -/
structure NRSState where
  originalDat : Nat → NSample
  newTiers : List String
  newInds : List Nat
  randomStart : List Nat
  randomEnd : List Nat

/-- `NRandomSubSequenceDataset.__init__`.  `tiers` is
`original_dat.trial_info.tiers`; `draw` stands for the values produced by
`np.random.randint(low=0, high=sequence_length - subsequence_length,
size=num_random_subsequence)` after the seed is set — `randint` itself
raises `ValueError` when `high ≤ low` (modelled as `configError`, the spec's
name for this construction-time failure), and otherwise returns `size`
naturals below `high` (stated as hypotheses where a theorem needs them).
With an explicit `random_start`, the `assert len(random_start) ==
num_random_subsequence` is the only check. -/
def NRSinit (orig : Nat → NSample) (tiers : List String)
    (num subLen seqLen : Nat) (randomStart : Option (List Nat))
    (draw : List Nat) : Except PyErr NRSState :=
  let pairs := expandTiers num tiers.enum
  match randomStart with
  | none =>
    if (seqLen : Int) - (subLen : Int) ≤ 0 then .error .configError
    else
      .ok { originalDat := orig, newTiers := pairs.map Prod.snd,
            newInds := pairs.map Prod.fst, randomStart := draw,
            randomEnd := draw.map (· + subLen) }
  | some rs =>
    if rs.length ≠ num then .error .configError
    else
      .ok { originalDat := orig, newTiers := pairs.map Prod.snd,
            newInds := pairs.map Prod.fst, randomStart := rs,
            randomEnd := rs.map (· + subLen) }

/-- `NRandomSubSequenceDataset.__getitem__`: a "train" entry is rebuilt with
every field sliced to `[:, start:end]` where `start`/`end` come from position
`index % self.num4rand` of the shared window set; any other entry is the base
item, returned as-is. -/
def NRSState.getItem (ds : NRSState) (index : Nat) : NSample :=
  if ds.newTiers.getD index "" = "train" then
    let j := index % ds.randomStart.length
    (ds.originalDat (ds.newInds.getD index 0)).map
      (sliceMat (ds.randomStart.getD j 0) (ds.randomEnd.getD j 0))
  else
    ds.originalDat (ds.newInds.getD index 0)

/-- `NRandomSubSequenceDataset.__len__`: `len(self.new_tiers)`. -/
def NRSState.lenN (ds : NRSState) : Nat :=
  ds.newTiers.length

/-- The per-item weight of the expansion: "none" contributes 0, "train"
contributes `num`, anything else 1. -/
def tierWeight (num : Nat) (t : String) : Nat :=
  if t = "none" then 0 else if t = "train" then num else 1

/-! ### Shared lemmas -/

theorem isOk_map (e : Except PyErr β) (f : β → γ) : (e.map f).isOk = e.isOk := by
  cases e <;> rfl

theorem checkKeys_ok_some (c : Container α) (m : Nat) :
    ∀ keys : List String, (∀ k ∈ keys, k ∈ c.groups ∧ c.glen k = m) →
      checkKeys c keys (some m) = .ok (some m)
  | [], _ => rfl
  | k :: rest, h => by
    obtain ⟨hk, hg⟩ := h k (List.mem_cons_self k rest)
    simp only [checkKeys, if_pos hk, hg, ne_eq, not_true_eq_false, if_neg, ite_false]
    exact checkKeys_ok_some c m rest fun k' hk' => h k' (List.mem_cons_of_mem _ hk')

theorem checkKeys_ok_nil (c : Container α) (k : String) (rest : List String) (m : Nat)
    (h : ∀ k' ∈ k :: rest, k' ∈ c.groups ∧ c.glen k' = m) :
    checkKeys c (k :: rest) none = .ok (some m) := by
  obtain ⟨hk, hg⟩ := h k (List.mem_cons_self k rest)
  simp only [checkKeys, if_pos hk, hg]
  exact checkKeys_ok_some c m rest fun k' hk' => h k' (List.mem_cons_of_mem _ hk')

theorem checkKeys_absent (c : Container α) :
    ∀ (keys : List String) (m0 : Option Nat), (∃ k ∈ keys, k ∉ c.groups) →
      checkKeys c keys m0 = .error .schemaError
  | [], _, h => absurd h (by simp)
  | k :: rest, m0, h => by
    by_cases hk : k ∈ c.groups
    · have hrest : ∃ k' ∈ rest, k' ∉ c.groups := by
        obtain ⟨k', hk', hnk'⟩ := h
        rcases List.mem_cons.mp hk' with rfl | hmem
        · exact absurd hk hnk'
        · exact ⟨k', hmem, hnk'⟩
      cases m0 with
      | none => simpa only [checkKeys, if_pos hk] using checkKeys_absent c rest _ hrest
      | some m0 =>
        by_cases hlen : c.glen k ≠ m0
        · simp only [checkKeys, if_pos hk, if_pos hlen]
        · simpa only [checkKeys, if_pos hk, if_neg hlen] using checkKeys_absent c rest _ hrest
    · simp only [checkKeys, if_neg hk]

theorem checkKeys_bad_from (c : Container α) :
    ∀ (keys : List String) (m : Nat), (∃ k ∈ keys, c.glen k ≠ m) →
      checkKeys c keys (some m) = .error .schemaError
  | [], _, h => absurd h (by simp)
  | k :: rest, m, h => by
    by_cases hk : k ∈ c.groups
    · by_cases hlen : c.glen k ≠ m
      · simp only [checkKeys, if_pos hk, if_pos hlen]
      · push_neg at hlen
        have hrest : ∃ k' ∈ rest, c.glen k' ≠ m := by
          obtain ⟨k', hk', hnk'⟩ := h
          rcases List.mem_cons.mp hk' with rfl | hmem
          · exact absurd hlen hnk'
          · exact ⟨k', hmem, hnk'⟩
        simpa only [checkKeys, if_pos hk, hlen, ne_eq, not_true_eq_false, if_neg,
          ite_false] using checkKeys_bad_from c rest m hrest
    · simp only [checkKeys, if_neg hk]

theorem checkKeys_mismatch (c : Container α) :
    ∀ (keys : List String) (m0 : Option Nat),
      (∃ k1 ∈ keys, ∃ k2 ∈ keys, c.glen k1 ≠ c.glen k2) →
      checkKeys c keys m0 = .error .schemaError
  | [], _, h => absurd h (by simp)
  | k :: rest, m0, h => by
    by_cases hk : k ∈ c.groups
    · have hrest : ∃ k' ∈ rest, c.glen k' ≠ c.glen k := by
        obtain ⟨k1, hk1, k2, hk2, hne⟩ := h
        rcases List.mem_cons.mp hk1 with rfl | hm1
        · rcases List.mem_cons.mp hk2 with rfl | hm2
          · exact absurd rfl hne
          · exact ⟨k2, hm2, fun hc => hne hc.symm⟩
        · rcases List.mem_cons.mp hk2 with rfl | hm2
          · exact ⟨k1, hm1, hne⟩
          · by_cases hck : c.glen k1 = c.glen k
            · exact ⟨k2, hm2, fun hc => hne (hck.trans hc.symm)⟩
            · exact ⟨k1, hm1, hck⟩
      cases m0 with
      | none =>
        simpa only [checkKeys, if_pos hk] using checkKeys_bad_from c rest _ hrest
      | some m0 =>
        by_cases hlen : c.glen k ≠ m0
        · simp only [checkKeys, if_pos hk, if_pos hlen]
        · simpa only [checkKeys, if_pos hk, if_neg hlen] using
            checkKeys_bad_from c rest _ hrest
    · simp only [checkKeys, if_neg hk]

theorem collectReads_all_some (f : String → Option α) (d : α) :
    ∀ keys : List String, (∀ g ∈ keys, (f g).isSome) →
      collectReads f keys = .ok (keys.map fun g => (f g).getD d)
  | [], _ => rfl
  | g :: rest, h => by
    have hg := h g (List.mem_cons_self g rest)
    obtain ⟨v, hv⟩ := Option.isSome_iff_exists.mp hg
    have ih := collectReads_all_some f d rest fun g' hg' => h g' (List.mem_cons_of_mem _ hg')
    simp only [collectReads, hv, ih, Except.map, List.map_cons, Option.getD_some]

theorem collectReads_miss (f : String → Option α) :
    ∀ keys : List String, (∃ g ∈ keys, f g = none) →
      collectReads f keys = .error .keyError
  | [], h => absurd h (by simp)
  | g :: rest, h => by
    cases hv : f g with
    | none => simp only [collectReads, hv]
    | some v =>
      have hrest : ∃ g' ∈ rest, f g' = none := by
        obtain ⟨g', hg', hn⟩ := h
        rcases List.mem_cons.mp hg' with rfl | hm
        · exact absurd hn (by simp [hv])
        · exact ⟨g', hm, hn⟩
      simp only [collectReads, hv, collectReads_miss f rest hrest, Except.map]

theorem applyChecked_ok (acc : Tr α → Bool) :
    ∀ (trs : List (Tr α)) (x : List α), (∀ tr ∈ trs, acc tr = true) →
      (applyChecked acc trs x).isOk = true
  | [], _, _ => rfl
  | tr :: rest, x, h => by
    have htr := h tr (List.mem_cons_self tr rest)
    simp only [applyChecked, if_pos htr]
    exact applyChecked_ok acc rest (tr.fn x) fun tr' h' => h tr' (List.mem_cons_of_mem _ h')

theorem applyChecked_firstBad (acc : Tr α → Bool) (bad : Tr α) (post : List (Tr α))
    (hbad : acc bad = false) :
    ∀ (pre : List (Tr α)) (x : List α), (∀ tr ∈ pre, acc tr = true) →
      applyChecked acc (pre ++ bad :: post) x = .error .schemaError
  | [], x, _ => by simp only [List.nil_append, applyChecked, hbad, Bool.false_eq_true,
      if_false, ite_false]
  | tr :: pre, x, h => by
    have htr := h tr (List.mem_cons_self tr pre)
    simp only [List.cons_append, applyChecked, if_pos htr]
    exact applyChecked_firstBad acc bad post hbad pre (tr.fn x)
      fun tr' h' => h tr' (List.mem_cons_of_mem _ h')

theorem transformExcl_eq_filter (excl : Tr NArr → Bool) :
    ∀ (trs : List (Tr NArr)) (x : List NArr),
      transformExcl excl trs x = applyAll (trs.filter fun tr => !excl tr) x
  | [], _ => rfl
  | tr :: rest, x => by
    by_cases h : excl tr
    · simp only [transformExcl, if_pos h, List.filter_cons, h, Bool.not_true,
        transformExcl_eq_filter excl rest x, if_true, Bool.false_eq_true, if_false, ite_true,
        ite_false]
    · simp only [transformExcl, if_neg h, List.filter_cons, Bool.not_eq_true] at *
      simp only [h, Bool.not_false, if_true, applyAll, transformExcl_eq_filter excl rest (tr.fn x)]

theorem expandTiers_length (num : Nat) :
    ∀ l : List (Nat × String),
      (expandTiers num l).length = (l.map fun p => tierWeight num p.2).sum
  | [] => rfl
  | (ii, t) :: rest => by
    simp only [expandTiers, List.length_append, expandTiers_length num rest,
      List.map_cons, List.sum_cons, tierWeight]
    by_cases h1 : t = "none"
    · simp [h1]
    · by_cases h2 : t = "train" <;> simp [h1, h2]

theorem getD_map_add (l : List Nat) (j c d : Nat) (hj : j < l.length) :
    (l.map (· + c)).getD j d = l.getD j d + c := by
  simp only [List.getD_eq_getElem?_getD, List.getElem?_map]
  rw [List.getElem?_eq_getElem hj]
  rfl

/-! ### Claim theorems -/

/-- C1: for every valid index `i`, `get(i)` returns the same sample content in
lazy mode (string-keyed access to the open container) and in eager mode
(integer-keyed access to the materialized mapping after `load_content`);
toggling via `load_content`/`unload_content` changes only the retrieval path,
never the returned value, leaves the length unchanged, and is idempotent. -/
theorem c1_lazy_eager_equiv {α : Type} (s : H5State α) (n i : Nat)
    (hb : s.backing = .onDisk s.fid) (hl : s.dataLoaded = false)
    (hn : s.lenV = some n) (hi : i < n) :
    (loadContent s).getItem i = s.getItem i ∧
    loadContent (loadContent s) = loadContent s ∧
    unloadContent (unloadContent s) = unloadContent s ∧
    unloadContent (loadContent s) = s ∧
    (loadContent s).lenV = s.lenV ∧ (unloadContent s).lenV = s.lenV := by
  refine ⟨?_, rfl, rfl, ?_, rfl, rfl⟩
  · simp only [H5State.getItem, loadContent, hb, hl]
    rfl
  · cases s with
    | mk fid backing dataLoaded dataKeys lenV tset transforms =>
      simp only [loadContent, unloadContent] at *
      simp [hb, hl]

/-- A concrete two-group container holding one sample per group. -/
def cW : Container Nat :=
  { groups := ["inputs", "responses"],
    elem := fun g k =>
      if k = "0" then (if g = "inputs" then some 10 else some 20) else none,
    glen := fun _ => 1 }

/-- A concrete lazy collection over `cW`, as produced by `H5init`. -/
def h5W : H5State Nat :=
  { fid := cW, backing := .onDisk cW, dataLoaded := false,
    dataKeys := ["inputs", "responses"], lenV := some 1, tset := .dataT,
    transforms := [] }

/-- C1 witness: the equivalence theorem applied to `h5W` at index 0. -/
theorem c1_witness :
    (loadContent h5W).getItem 0 = h5W.getItem 0 ∧
    loadContent (loadContent h5W) = loadContent h5W ∧
    unloadContent (unloadContent h5W) = unloadContent h5W ∧
    unloadContent (loadContent h5W) = h5W ∧
    (loadContent h5W).lenV = h5W.lenV ∧ (unloadContent h5W).lenV = h5W.lenV :=
  c1_lazy_eager_equiv h5W 1 0 rfl rfl rfl (by decide)

/-- The spec's schema-violation scenario: a container whose group "inputs"
has length 100 while "responses" has length 99. -/
def cMismatch : Container Unit :=
  { groups := ["inputs", "responses"], elem := fun _ _ => none,
    glen := fun g => if g = "inputs" then 100 else 99 }

/-- C2: construction fails (spec: `SchemaError`) if a requested group is
absent or two requested groups have different lengths; in particular it fails
on the 100-vs-99 "inputs"/"responses" container; and when every requested
group is present with the common length `m`, construction succeeds with
`_len = m`. -/
theorem c2_schema_validation {α : Type} (c : Container α) (keys : List String)
    (trs : List (Tr α)) (k : String) (rest : List String) (m : Nat) :
    ((∃ k0 ∈ keys, k0 ∉ c.groups) → H5init c keys trs = .error .schemaError) ∧
    ((∃ k1 ∈ keys, ∃ k2 ∈ keys, c.glen k1 ≠ c.glen k2) →
      H5init c keys trs = .error .schemaError) ∧
    ((∀ k0 ∈ k :: rest, k0 ∈ c.groups ∧ c.glen k0 = m) →
      H5init c (k :: rest) trs =
        .ok { fid := c, backing := .onDisk c, dataLoaded := false,
              dataKeys := k :: rest, lenV := some m, tset := .dataT,
              transforms := trs }) ∧
    H5init cMismatch ["inputs", "responses"] ([] : List (Tr Unit)) = .error .schemaError := by
  refine ⟨fun h => ?_, fun h => ?_, fun h => ?_, ?_⟩
  · simp only [H5init, checkKeys_absent c keys none h, Except.map]
  · simp only [H5init, checkKeys_mismatch c keys none h, Except.map]
  · simp only [H5init, checkKeys_ok_nil c k rest m h, Except.map]
  · rfl

/-- The all-valid counterpart: both groups present with length 7. -/
def cOkW : Container Unit :=
  { groups := ["inputs", "responses"], elem := fun _ _ => none, glen := fun _ => 7 }

/-- C2 witness: `c2_schema_validation` applied to the concrete container
`cOkW`, giving a successful construction with `_len = 7`. -/
theorem c2_witness :
    H5init cOkW ["inputs", "responses"] ([] : List (Tr Unit)) =
      .ok { fid := cOkW, backing := .onDisk cOkW, dataLoaded := false,
            dataKeys := ["inputs", "responses"], lenV := some 7, tset := .dataT,
            transforms := [] } :=
  (c2_schema_validation cOkW [] [] "inputs" ["responses"] 7).2.2.1 (by decide)

/-- C3: the expanded view's length is the sum over base items of 0 for
"none", `num_random_subsequence` for "train", and 1 for any other label; for
labels ["train","train","val","none","train"] with `num_random_subsequence=2`
the length is 7, indices 0 and 1 resolve to base item 0, and index 4 resolves
to base item 2. -/
theorem c3_expanded_length (orig : Nat → NSample) (tiers : List String)
    (num subLen seqLen : Nat) (rsO : Option (List Nat)) (draw : List Nat) :
    (∀ s, NRSinit orig tiers num subLen seqLen rsO draw = .ok s →
        s.lenN = (tiers.map (tierWeight num)).sum) ∧
    ((NRSinit (fun _ => ([] : NSample)) ["train", "train", "val", "none", "train"] 2 100 300
        (some [0, 50]) []).map
      (fun s => (s.lenN, s.newInds.getD 0 9, s.newInds.getD 1 9, s.newInds.getD 4 9)) =
      .ok (7, 0, 0, 2)) := by
  constructor
  · intro s hs
    have hlen : ((expandTiers num tiers.enum).map Prod.snd).length =
        (tiers.map (tierWeight num)).sum := by
      rw [List.length_map, expandTiers_length]
      have : (tiers.enum.map fun p => tierWeight num p.2) =
          (tiers.enum.map Prod.snd).map (tierWeight num) := by
        rw [List.map_map]; rfl
      rw [this, List.enum_map_snd]
    cases rsO with
    | none =>
      simp only [NRSinit] at hs
      split at hs
      · exact absurd hs (by simp)
      · cases hs
        exact hlen
    | some rs =>
      simp only [NRSinit] at hs
      split at hs
      · exact absurd hs (by simp)
      · cases hs
        exact hlen
  · rfl

/-- C3 witness: the length formula applied to the concrete five-item view. -/
theorem c3_witness :
    ∃ s, NRSinit (fun _ => ([] : NSample)) ["train", "train", "val", "none", "train"] 2 100 300
        (some [0, 50]) [] = .ok s ∧ s.lenN = 7 := by
  refine ⟨_, rfl, ?_⟩
  have h := (c3_expanded_length (fun _ => ([] : NSample))
      ["train", "train", "val", "none", "train"] 2 100 300 (some [0, 50]) []).1 _ rfl
  simpa using h

/-- C4: for an expanded index whose base item is labeled "train", `get`
selects the window at position `index mod num_random_subsequence` of the
shared set and slices every field along its second axis to
`[start, start+subsequence_length)`; every crop row then has length exactly
`subsequence_length` and (for the generated window set, whose values satisfy
the `randint` contract `x < sequence_length - subsequence_length`) the start
lies in `[0, sequence_length - subsequence_length)`; non-"train" items are
returned unchanged. -/
theorem c4_train_crop (orig : Nat → NSample) (tiers : List String)
    (num subLen seqLen : Nat) (draw : List Nat) (s : NRSState) (i : Nat)
    (hok : NRSinit orig tiers num subLen seqLen none draw = .ok s)
    (hdlen : draw.length = num)
    (hdlt : ∀ x ∈ draw, x < seqLen - subLen)
    (hnum : 0 < num)
    (hrows : ∀ f ∈ orig (s.newInds.getD i 0), ∀ row ∈ f, row.length = seqLen) :
    (s.newTiers.getD i "" = "train" →
      s.getItem i = (orig (s.newInds.getD i 0)).map
        (sliceMat (draw.getD (i % num) 0) (draw.getD (i % num) 0 + subLen)) ∧
      (∀ f ∈ s.getItem i, ∀ row ∈ f, row.length = subLen) ∧
      draw.getD (i % num) 0 < seqLen - subLen) ∧
    (s.newTiers.getD i "" ≠ "train" →
      s.getItem i = orig (s.newInds.getD i 0)) := by
  simp only [NRSinit] at hok
  split at hok
  · exact absurd hok (by simp)
  · rename_i hrange
    cases hok
    subst hdlen
    have hjlt : i % draw.length < draw.length := Nat.mod_lt i hnum
    have hmem : draw.getD (i % draw.length) 0 ∈ draw := by
      rw [List.getD_eq_getElem?_getD, List.getElem?_eq_getElem hjlt]
      exact List.getElem_mem hjlt
    have hstart : draw.getD (i % draw.length) 0 < seqLen - subLen := hdlt _ hmem
    constructor
    · intro htrain
      simp only [NRSState.getItem, htrain, if_pos]
      rw [getD_map_add draw (i % draw.length) subLen 0 hjlt]
      refine ⟨rfl, ?_, hstart⟩
      intro f hf row hrow
      simp only [List.mem_map] at hf
      obtain ⟨f0, hf0, rfl⟩ := hf
      simp only [sliceMat, List.mem_map] at hrow
      obtain ⟨r0, hr0, rfl⟩ := hrow
      have hr0len := hrows f0 hf0 r0 hr0
      simp only [List.length_take, List.length_drop, hr0len]
      omega
    · intro hnt
      simp only [NRSState.getItem, if_neg hnt]

/-- The state built by `NRSinit` for a single "train" item, full length 300,
`subsequence_length = 100`, generated starts `[0, 50]`. -/
def nrsW : NRSState :=
  { originalDat := fun _ => [[List.replicate 300 (0 : ℚ)]],
    newTiers := ["train", "train"], newInds := [0, 0],
    randomStart := [0, 50], randomEnd := [100, 150] }

/-- C4 witness: the crop theorem applied to `nrsW` at expanded index 0. -/
theorem c4_witness :
    (nrsW.newTiers.getD 0 "" = "train" →
      nrsW.getItem 0 = ([[List.replicate 300 (0 : ℚ)]] : NSample).map (sliceMat 0 100) ∧
      (∀ f ∈ nrsW.getItem 0, ∀ row ∈ f, row.length = 100) ∧
      0 < 300 - 100) ∧
    (nrsW.newTiers.getD 0 "" ≠ "train" →
      nrsW.getItem 0 = [[List.replicate 300 (0 : ℚ)]]) :=
  c4_train_crop (fun _ => [[List.replicate 300 (0 : ℚ)]]) ["train"] 2 100 300 [0, 50] nrsW 0
    rfl rfl (by decide) (by decide)
    (by
      intro f hf row hrow
      simp only [List.mem_singleton] at hf
      subst hf
      simp only [List.mem_singleton] at hrow
      subst hrow
      exact List.length_replicate 300 0)

/-- C9: `NRandomSubSequenceDataset` construction fails (spec: `ConfigError`)
exactly when an explicit start list's length differs from
`num_random_subsequence`, or when no explicit starts are given and
`subsequence_length ≥ sequence_length` (empty `randint` range); the outcome
is decided before any base-item read: it does not depend on the base
collection. -/
theorem c9_config_errors (orig : Nat → NSample) (tiers : List String)
    (num subLen seqLen : Nat) (rsO : Option (List Nat)) (draw : List Nat) :
    ((NRSinit orig tiers num subLen seqLen rsO draw).isOk = false ↔
      (∃ rs, rsO = some rs ∧ rs.length ≠ num) ∨ (rsO = none ∧ seqLen ≤ subLen)) ∧
    (∀ orig' : Nat → NSample,
      (NRSinit orig tiers num subLen seqLen rsO draw).isOk =
        (NRSinit orig' tiers num subLen seqLen rsO draw).isOk) := by
  constructor
  · cases rsO with
    | none =>
      by_cases h : (seqLen : Int) - (subLen : Int) ≤ 0
      · have he : NRSinit orig tiers num subLen seqLen none draw = .error .configError := by
          simp only [NRSinit, if_pos h]
        rw [he]
        exact iff_of_true rfl (Or.inr ⟨rfl, by omega⟩)
      · have he : (NRSinit orig tiers num subLen seqLen none draw).isOk = true := by
          simp only [NRSinit, if_neg h]
          rfl
        rw [he]
        refine iff_of_false (fun hc => Bool.noConfusion hc) ?_
        rintro (⟨rs, hrs, _⟩ | ⟨_, hle⟩)
        · exact Option.noConfusion hrs
        · omega
    | some rs =>
      by_cases h : rs.length ≠ num
      · have he : NRSinit orig tiers num subLen seqLen (some rs) draw = .error .configError := by
          simp only [NRSinit, if_pos h]
        rw [he]
        exact iff_of_true rfl (Or.inl ⟨rs, rfl, h⟩)
      · have he : (NRSinit orig tiers num subLen seqLen (some rs) draw).isOk = true := by
          simp only [NRSinit, if_neg h]
          rfl
        rw [he]
        refine iff_of_false (fun hc => Bool.noConfusion hc) ?_
        rintro (⟨rs', hrs', hne⟩ | ⟨hn, _⟩)
        · cases hrs'; exact h hne
        · exact Option.noConfusion hn
  · intro orig'
    cases rsO with
    | none =>
      simp only [NRSinit]
      split <;> rfl
    | some rs =>
      simp only [NRSinit]
      split <;> rfl

/-- C9 witness: both invalid configurations, concretely — a generated-start
construction with `subsequence_length = sequence_length = 100` fails, and an
explicit three-element start list with `num_random_subsequence = 2` fails. -/
theorem c9_witness :
    (NRSinit (fun _ => ([] : NSample)) ["train"] 10 100 100 none []).isOk = false ∧
    (NRSinit (fun _ => ([] : NSample)) ["train"] 2 100 300 (some [0, 1, 2]) []).isOk = false :=
  ⟨(c9_config_errors (fun _ => ([] : NSample)) ["train"] 10 100 100 none []).1.mpr
      (Or.inr ⟨rfl, by omega⟩),
    (c9_config_errors (fun _ => ([] : NSample)) ["train"] 2 100 300 (some [0, 1, 2]) []).1.mpr
      (Or.inl ⟨[0, 1, 2], rfl, by decide⟩)⟩

/-- Default array used to read back values that are known to be present. -/
def dArr : NArr := ⟨[], fun _ => 0⟩

/-- C5: `transformed_mean` builds one `np.atleast_1d` statistics mean per
requested group (so each value has at least one dimension) and routes the
sample through the pipeline with exactly the subsequence- and delay-tagged
stages excluded; when the pipeline consists only of such stages, the output
at the visual-input position equals the statistics mean for "inputs" under
the default split. -/
theorem c5_transformed_mean (ms : MovieState) (srcO : Option String) :
    transformedMean ms srcO =
      applyAll (ms.transforms.filter fun tr => !(tr.isSub || tr.isDelay))
        (ms.dataKeys.map fun g => atleast1d (ms.stats g (srcO.getD ms.statsSource) "mean")) ∧
    (∀ a : NArr, 1 ≤ (atleast1d a).shape.length) ∧
    ((∀ tr ∈ ms.transforms, tr.isSub = true ∨ tr.isDelay = true) →
      ∀ j : Nat, ms.dataKeys[j]? = some "inputs" →
        (transformedMean ms none)[j]? =
          some (atleast1d (ms.stats "inputs" ms.statsSource "mean"))) := by
  refine ⟨?_, ?_, ?_⟩
  · simp only [transformedMean]
    exact transformExcl_eq_filter _ ms.transforms _
  · intro a
    by_cases h : a.shape = []
    · simp [atleast1d, h]
    · simp only [atleast1d, if_neg h]
      exact List.length_pos.mpr h
  · intro hall j hj
    have hfilter : (ms.transforms.filter fun tr => !(tr.isSub || tr.isDelay)) = [] := by
      rw [List.filter_eq_nil_iff]
      intro tr htr
      rcases hall tr htr with h | h <;> simp [h]
    simp only [transformedMean]
    rw [transformExcl_eq_filter, hfilter]
    simp only [applyAll, List.getElem?_map, hj, Option.map_some', Option.getD_none]

/-- A concrete two-group movie container holding one sample per group. -/
def cNW : Container NArr :=
  { groups := ["inputs", "responses"],
    elem := fun _ k => if k = "0" then some dArr else none, glen := fun _ => 1 }

/-- A delay-tagged movie transform (identity payload). -/
def trDelay : Tr NArr := ⟨true, false, true, fun x => x⟩

/-- A concrete `MovieSet` over `cNW` with a delay transform configured, a
scalar "inputs" mean of 3 and vector means for the other groups. -/
def msW : MovieState :=
  { fid := cNW, backing := .onDisk cNW, dataLoaded := false,
    dataKeys := ["inputs", "responses"], lenV := some 1, tset := .movieT,
    transforms := [trDelay],
    stats := fun g _ _ => if g = "inputs" then ⟨[], fun _ => 3⟩ else ⟨[2], fun _ => 1⟩,
    imgShape := ⟨1, 1, 300, 2, 2⟩, statsSource := "all" }

/-- C5 witness: `transformed_mean` on `msW` (whose pipeline is a single delay
stage) returns the "inputs" statistics mean at the inputs position. -/
theorem c5_witness :
    (transformedMean msW none)[0]? =
      some (atleast1d (msW.stats "inputs" msW.statsSource "mean")) :=
  (c5_transformed_mean msW none).2.2
    (by
      intro tr htr
      have hm : msW.transforms = [trDelay] := rfl
      rw [hm, List.mem_singleton] at htr
      subst htr
      right
      rfl)
    0 rfl

/-- C6: `rf_base` assembles the four-key synthetic sample and routes it with
only subsequence-tagged stages excluded (delay stages remain applied, last
conjunct); its visual-input entry has shape
`(1, channels, min(time, 150), width, height)` and is filled with the scalar
"inputs" statistics mean; the behavior/eye/response entries are the group
means broadcast over the same time extent `(1, min(time,150), k)`. -/
theorem c6_rf_base (ms : MovieState) (src : String) (μ : ℚ)
    (hscalar : ms.stats "inputs" src "mean" = ⟨[], fun _ => μ⟩)
    (hkeys : ∀ k ∈ ms.dataKeys,
      k ∈ (["inputs", "eye_position", "behavior", "responses"] : List String)) :
    rfBase ms src = .ok (transformExcl (fun tr => tr.isSub) ms.transforms
        (ms.dataKeys.map fun k => (rfBaseDict ms src k).getD dArr)) ∧
    ((rfBaseDict ms src "inputs").getD dArr).shape =
      [1, ms.imgShape.c, min ms.imgShape.t 150, ms.imgShape.w, ms.imgShape.h] ∧
    (∀ idx, ((rfBaseDict ms src "inputs").getD dArr).entry idx = μ) ∧
    (∀ g ∈ (["eye_position", "behavior", "responses"] : List String),
      rfBaseDict ms src g = some (bcastTime (min ms.imgShape.t 150) (ms.stats g src "mean"))) ∧
    (∀ (t : Nat) (a : NArr), (bcastTime t a).shape = 1 :: t :: a.shape) ∧
    (∀ x, transformExcl (fun tr => tr.isSub) ms.transforms x =
      applyAll (ms.transforms.filter fun tr => !tr.isSub) x) := by
  refine ⟨?_, ?_, ?_, ?_, fun t a => rfl, fun x => transformExcl_eq_filter _ ms.transforms x⟩
  · have hsome : ∀ k ∈ ms.dataKeys, ((rfBaseDict ms src) k).isSome := by
      intro k hk
      have h4 := hkeys k hk
      simp only [List.mem_cons, List.not_mem_nil, or_false] at h4
      rcases h4 with rfl | rfl | rfl | rfl <;> simp [rfBaseDict]
    rw [rfBase, collectReads_all_some (rfBaseDict ms src) dArr ms.dataKeys hsome]
    rfl
  · simp [rfBaseDict, onesMul]
  · intro idx
    simp [rfBaseDict, onesMul, hscalar, bAlign]
  · intro g hg
    simp only [List.mem_cons, List.not_mem_nil, or_false] at hg
    rcases hg with rfl | rfl | rfl <;> simp [rfBaseDict]

/-- C6 witness: `c6_rf_base` applied to the concrete collection `msW`
(scalar "inputs" mean 3). -/
theorem c6_witness :
    rfBase msW "all" = .ok (transformExcl (fun tr => tr.isSub) msW.transforms
        (msW.dataKeys.map fun k => (rfBaseDict msW "all" k).getD dArr)) ∧
    ((rfBaseDict msW "all" "inputs").getD dArr).shape =
      [1, msW.imgShape.c, min msW.imgShape.t 150, msW.imgShape.w, msW.imgShape.h] ∧
    (∀ idx, ((rfBaseDict msW "all" "inputs").getD dArr).entry idx = 3) ∧
    (∀ g ∈ (["eye_position", "behavior", "responses"] : List String),
      rfBaseDict msW "all" g =
        some (bcastTime (min msW.imgShape.t 150) (msW.stats g "all" "mean"))) ∧
    (∀ (t : Nat) (a : NArr), (bcastTime t a).shape = 1 :: t :: a.shape) ∧
    (∀ x, transformExcl (fun tr => tr.isSub) msW.transforms x =
      applyAll (msW.transforms.filter fun tr => !tr.isSub) x) :=
  c6_rf_base msW "all" 3 rfl (by decide)

/-- C7: evaluating the embedded `rf_noise_stim` at its failing input — on any
collection whose container has no group literally named "data_groups", the
call raises `AttributeError` while resolving the undefined `self.data_groups`
(the class defines `data_keys`), and so never returns the synthesized
stimulus. -/
theorem c7_rf_noise_stim_attr_error (ms : MovieState) (m t : Nat) (src : String)
    (hdg : "data_groups" ∉ ms.fid.groups) :
    rfNoiseStim ms m t src = .error .attributeError := by
  simp only [rfNoiseStim, if_neg hdg]

/-- C7 witness: the failure theorem applied to the concrete collection
`msW`, at `m = 1`, `t = 1`. -/
theorem c7_witness : rfNoiseStim msW 1 1 "all" = .error .attributeError :=
  c7_rf_noise_stim_attr_error msW 1 1 "all" (by decide)

/-- A stage that is a `DataTransform` but not a `MovieTransform`: incompatible
with `MovieSet`'s accepted set. -/
def badTr : Tr NArr := ⟨false, false, false, fun x => x⟩

/-- A concrete one-group movie container. -/
def cN8 : Container NArr :=
  { groups := ["inputs"], elem := fun _ k => if k = "0" then some dArr else none,
    glen := fun _ => 1 }

/-- C8 counterexample: constructing a `MovieSet` whose configured pipeline
contains an incompatible (non-movie) stage succeeds — compatibility is NOT
validated at construction, contradicting the claimed fail-fast behavior. -/
theorem c8_counterexample :
    (movieInit cN8 ["inputs"] [badTr] (fun _ _ _ => dArr) ⟨1, 1, 1, 1, 1⟩ "all").isOk =
      true := rfl

/-- C8 amended: capability compatibility is enforced at each `get(index)`
call, not at construction: with the collection's accepted set
(`MovieTransform` for `MovieSet`), the first stage lacking the tag makes
retrieval fail with the schema error before that stage (or any later stage)
runs, while construction ignores the configured pipeline entirely (its
outcome equals that of an empty pipeline). -/
theorem c8_amended (ms : MovieState) (pre post : List (Tr NArr)) (bad : Tr NArr)
    (i : Nat) (v : List NArr)
    (hts : ms.tset = .movieT)
    (htr : ms.transforms = pre ++ bad :: post)
    (hpre : ∀ tr ∈ pre, tr.isMovie = true)
    (hbad : bad.isMovie = false)
    (hread : collectReads (fun g => ms.backing.lookupB g
        (if ms.dataLoaded then HKey.num i else HKey.str (toString i))) ms.dataKeys =
      .ok v) :
    ms.toH5State.getItem i = .error .schemaError ∧
    (∀ (c : Container NArr) (keys : List String) (trs : List (Tr NArr)) stats ishape src,
      (movieInit c keys trs stats ishape src).isOk =
        (movieInit c keys [] stats ishape src).isOk) := by
  constructor
  · have hred : ms.toH5State.getItem i =
        applyChecked (TSet.accepts ms.tset) ms.transforms v := by
      simp only [H5State.getItem, hread]
      rfl
    rw [hred, htr, hts]
    exact applyChecked_firstBad _ bad post hbad pre v hpre
  · intro c keys trs stats ishape src
    simp only [movieInit, H5init, isOk_map]

/-- A concrete `MovieSet` whose pipeline is exactly the incompatible stage. -/
def ms8W : MovieState :=
  { fid := cN8, backing := .onDisk cN8, dataLoaded := false,
    dataKeys := ["inputs"], lenV := some 1, tset := .movieT,
    transforms := [badTr], stats := fun _ _ _ => dArr,
    imgShape := ⟨1, 1, 1, 1, 1⟩, statsSource := "all" }

/-- C8 witness: the amended theorem applied to `ms8W` at index 0. -/
theorem c8_witness :
    ms8W.toH5State.getItem 0 = .error .schemaError ∧
    (∀ (c : Container NArr) (keys : List String) (trs : List (Tr NArr)) stats ishape src,
      (movieInit c keys trs stats ishape src).isOk =
        (movieInit c keys [] stats ishape src).isOk) :=
  c8_amended ms8W [] [] badTr 0 [dArr] rfl rfl
    (fun tr h => absurd h (List.not_mem_nil tr)) rfl rfl

/-- A container carrying a group name ("pupil") outside the fixed four-key
set of the synthetic-sample generators. -/
def c10C : Container NArr :=
  { groups := ["inputs", "pupil"],
    elem := fun _ k => if k = "0" then some dArr else none, glen := fun _ => 1 }

/-- C10 counterexample: on a collection requesting the foreign group
"pupil", `rf_noise_stim` does not fail with a missing-key error as claimed —
it fails with the missing-attribute error (undefined `data_groups`), a
distinct failure mode. -/
theorem c10_counterexample :
    (movieInit c10C ["inputs", "pupil"] [] (fun _ _ _ => dArr) ⟨1, 1, 1, 1, 1⟩ "all").bind
        (fun ms => rfNoiseStim ms 1 1 "all") = .error .attributeError ∧
    PyErr.attributeError ≠ PyErr.keyError := ⟨rfl, by decide⟩

/-- The `MovieSet` state produced by a successful transform-free
construction over container `c` with the given keys and common length. -/
def msOf (c : Container NArr) (keys : List String) (mI : Nat)
    (stats : String → String → String → NArr) (ishape : Shape5) (src0 : String) :
    MovieState :=
  { fid := c, backing := .onDisk c, dataLoaded := false, dataKeys := keys,
    lenV := some mI, tset := .movieT, transforms := [],
    stats := stats, imgShape := ishape, statsSource := src0 }

/-- C10 amended: `rf_base` looks each requested group up in its fixed
four-key mapping, so a collection requesting any other name constructs,
reports its length and serves `get(index)` normally, yet `rf_base` fails
with a missing-key error; `rf_noise_stim` on such a collection fails too,
but with the missing-attribute error (undefined `data_groups`), regardless
of the requested names. -/
theorem c10_amended (c : Container NArr) (keys : List String) (k0 hd : String)
    (tl : List String) (stats : String → String → String → NArr) (ishape : Shape5)
    (src0 : String) (mI i : Nat)
    (hkeys : keys = hd :: tl)
    (hk0 : k0 ∈ keys)
    (hfor : k0 ∉ (["inputs", "eye_position", "behavior", "responses"] : List String))
    (hpres : ∀ k ∈ keys, k ∈ c.groups ∧ c.glen k = mI)
    (hdg : "data_groups" ∉ c.groups)
    (hread : ∀ k ∈ keys, (c.elem k (toString i)).isSome) :
    ∃ ms : MovieState, movieInit c keys [] stats ishape src0 = .ok ms ∧
      ms.lenV = some mI ∧
      (ms.toH5State.getItem i).isOk = true ∧
      (∀ src, rfBase ms src = .error .keyError) ∧
      (∀ m t src, rfNoiseStim ms m t src = .error .attributeError) := by
  subst hkeys
  refine ⟨msOf c (hd :: tl) mI stats ishape src0, ?_, rfl, ?_, ?_, ?_⟩
  · simp only [movieInit, H5init, checkKeys_ok_nil c hd tl mI hpres, Except.map]
    rfl
  · have hred : (msOf c (hd :: tl) mI stats ishape src0).toH5State.getItem i =
        (collectReads (fun g => c.elem g (toString i)) (hd :: tl)).bind
          (applyChecked TSet.movieT.accepts []) := rfl
    rw [hred, collectReads_all_some _ dArr (hd :: tl) hread]
    rfl
  · intro src
    simp only [List.mem_cons, List.not_mem_nil, or_false, not_or] at hfor
    have hnone : rfBaseDict (msOf c (hd :: tl) mI stats ishape src0) src k0 = none := by
      simp only [rfBaseDict, if_neg hfor.1, if_neg hfor.2.1, if_neg hfor.2.2.1,
        if_neg hfor.2.2.2]
    rw [rfBase, show (msOf c (hd :: tl) mI stats ishape src0).dataKeys = hd :: tl from rfl,
      collectReads_miss _ (hd :: tl) ⟨k0, hk0, hnone⟩]
    rfl
  · intro m t src
    simp only [rfNoiseStim, msOf, if_neg hdg]

/-- C10 witness: the amended theorem applied to the concrete collection over
`c10C`, which requests the foreign group "pupil". -/
theorem c10_witness :
    ∃ ms : MovieState,
      movieInit c10C ["inputs", "pupil"] [] (fun _ _ _ => dArr) ⟨1, 1, 1, 1, 1⟩ "all" =
        .ok ms ∧
      ms.lenV = some 1 ∧
      (ms.toH5State.getItem 0).isOk = true ∧
      (∀ src, rfBase ms src = .error .keyError) ∧
      (∀ m t src, rfNoiseStim ms m t src = .error .attributeError) :=
  c10_amended c10C ["inputs", "pupil"] "pupil" "inputs" ["pupil"]
    (fun _ _ _ => dArr) ⟨1, 1, 1, 1, 1⟩ "all" 1 0 rfl (by decide) (by decide)
    (by decide) (by decide) (by decide)

end NeuralPredictors
